import Mathlib

/-!
Shallow embedding of the order-management service in src/app/orders.py.

The Python module keeps a global dictionary from order id to order record and
exposes five handlers: create, list (with optional status and created_at-range
filters), partial update, cancel, and an aggregate report.  We model the
dictionary as an association list (insertion-ordered, as Python dicts are),
UUIDs as natural numbers supplied by the caller (uuid4 is nondeterministic),
datetimes as integers, and pydantic validation as explicit checks.
-/

namespace OrdersApp

/-- The three order states of the OrderStatus enum. -/
inductive OrderStatus where
  | PENDING
  | FULFILLED
  | CANCELLED
deriving DecidableEq

/-- The Order pydantic model: id, the three base fields, notes, status and the
two timestamps. -/
structure Order where
  id : Nat
  customer_name : String
  item : String
  quantity : Int
  notes : Option String
  status : OrderStatus
  created_at : Int
  updated_at : Int
deriving DecidableEq

/-- The OrderCreate request body (OrderBase plus optional notes). -/
structure OrderCreate where
  customer_name : String
  item : String
  quantity : Int
  notes : Option String
deriving DecidableEq

/-- The OrderUpdate request body.  The outer Option models pydantic's
set-versus-unset distinction (model_dump with exclude_unset); the inner Option
models an explicitly transmitted JSON null. -/
structure OrderUpdate where
  customer_name : Option (Option String)
  item : Option (Option String)
  quantity : Option (Option Int)
  notes : Option (Option String)
  status : Option (Option OrderStatus)
deriving DecidableEq

/-- The OrderReport response model: a total and a status-to-count mapping,
kept as an association list in Counter key order. -/
structure OrderReport where
  total : Nat
  statuses : List (OrderStatus × Nat)
deriving DecidableEq

/-- Errors a handler can surface: pydantic validation failure, or the explicit
HTTPException(404, "Order not found"). -/
inductive ApiError where
  | validationError
  | notFound (detail : String)
deriving DecidableEq

/-- The global `orders` dictionary, as an insertion-ordered association list. -/
abbrev Store := List (Nat × Order)

/-- Dictionary lookup (`orders.get(order_id)`). -/
def assocGet (store : Store) (k : Nat) : Option Order :=
  (store.find? (fun p => p.1 == k)).map (fun p => p.2)

/-- Dictionary assignment (`orders[k] = v`): replace the entry in place when
the key is present, append otherwise. -/
def assocSet : Store → Nat → Order → Store
  | [], k, v => [(k, v)]
  | p :: t, k, v => if p.1 = k then (k, v) :: t else p :: assocSet t k v

/-- The keys of the dictionary. -/
def storeKeys (store : Store) : List Nat :=
  store.map (fun p => p.1)

/-- Pydantic validation of an OrderCreate body: customer_name and item have
min_length 1 and quantity is strictly positive. -/
def validateOrderCreate (order_input : OrderCreate) : Bool :=
  decide (1 ≤ order_input.customer_name.length) &&
  decide (1 ≤ order_input.item.length) &&
  decide (0 < order_input.quantity)

/-- Pydantic validation of an OrderUpdate body: the min_length and gt
constraints apply only to a value that was sent and is not null. -/
def validateOrderUpdate (updates : OrderUpdate) : Bool :=
  (match updates.customer_name with
    | some (some s) => decide (1 ≤ s.length)
    | _ => true) &&
  (match updates.item with
    | some (some s) => decide (1 ≤ s.length)
    | _ => true) &&
  (match updates.quantity with
    | some (some q) => decide (0 < q)
    | _ => true)

/-- The create_order handler.  FastAPI validates the body first; on success the
handler stamps id and timestamps, defaults status to PENDING, and stores the
record.  The fresh uuid4 value is passed in as newId. -/
def create_order (newId : Nat) (now : Int) (order_input : OrderCreate)
    (store : Store) : Except ApiError Order × Store :=
  if validateOrderCreate order_input then
    let order : Order :=
      { id := newId
        customer_name := order_input.customer_name
        item := order_input.item
        quantity := order_input.quantity
        notes := order_input.notes
        status := OrderStatus.PENDING
        created_at := now
        updated_at := now }
    (Except.ok order, assocSet store newId order)
  else
    (Except.error ApiError.validationError, store)

/-- The intermediate dictionary produced by existing.model_dump() and mutated
by the update loop: the updatable fields may have been overwritten with an
explicit null before Order(**data) revalidates them. -/
structure OrderData where
  id : Nat
  customer_name : Option String
  item : Option String
  quantity : Option Int
  notes : Option String
  status : Option OrderStatus
  created_at : Int
  updated_at : Int
deriving DecidableEq

/-- existing.model_dump(): every field present, notes kept as is. -/
def orderToData (o : Order) : OrderData :=
  { id := o.id
    customer_name := some o.customer_name
    item := some o.item
    quantity := some o.quantity
    notes := o.notes
    status := some o.status
    created_at := o.created_at
    updated_at := o.updated_at }

/-- The merge loop of update_order: for each field present in
updates.model_dump(exclude_unset=True), overwrite data[field] with the sent
value (which may be null). -/
def applyUpdates (data : OrderData) (updates : OrderUpdate) : OrderData :=
  { data with
    customer_name :=
      match updates.customer_name with
      | some v => v
      | none => data.customer_name
    item :=
      match updates.item with
      | some v => v
      | none => data.item
    quantity :=
      match updates.quantity with
      | some v => v
      | none => data.quantity
    notes :=
      match updates.notes with
      | some v => v
      | none => data.notes
    status :=
      match updates.status with
      | some v => v
      | none => data.status }

/-- Order(**data): pydantic requires customer_name, item, quantity and status
to be present and non-null and rechecks the field constraints. -/
def mkOrder (data : OrderData) : Except ApiError Order :=
  match data.customer_name, data.item, data.quantity, data.status with
  | some cn, some it, some q, some st =>
    if 1 ≤ cn.length ∧ 1 ≤ it.length ∧ 0 < q then
      Except.ok
        { id := data.id
          customer_name := cn
          item := it
          quantity := q
          notes := data.notes
          status := st
          created_at := data.created_at
          updated_at := data.updated_at }
    else
      Except.error ApiError.validationError
  | _, _, _, _ => Except.error ApiError.validationError

/-- The update_order handler: body validation, 404 lookup, merge of the sent
fields, updated_at refresh, revalidation, store. -/
def update_order (now : Int) (order_id : Nat) (updates : OrderUpdate)
    (store : Store) : Except ApiError Order × Store :=
  if validateOrderUpdate updates then
    match assocGet store order_id with
    | none => (Except.error (ApiError.notFound "Order not found"), store)
    | some existing =>
      let data := applyUpdates (orderToData existing) updates
      let data := { data with updated_at := now }
      match mkOrder data with
      | Except.error e => (Except.error e, store)
      | Except.ok updated_order =>
        (Except.ok updated_order, assocSet store order_id updated_order)
  else
    (Except.error ApiError.validationError, store)

/-- The cancel_order handler: 404 lookup; an already CANCELLED order is
returned unchanged; otherwise status is set to CANCELLED, updated_at is
refreshed, and the record is stored. -/
def cancel_order (now : Int) (order_id : Nat) (store : Store) :
    Except ApiError Order × Store :=
  match assocGet store order_id with
  | none => (Except.error (ApiError.notFound "Order not found"), store)
  | some existing =>
    if existing.status = OrderStatus.CANCELLED then
      (Except.ok existing, store)
    else
      let updated_order :=
        { existing with status := OrderStatus.CANCELLED, updated_at := now }
      (Except.ok updated_order, assocSet store order_id updated_order)

/-- The key comparison passed to sorted(..., reverse=True) on created_at. -/
def createdDesc (a b : Order) : Bool :=
  decide (b.created_at ≤ a.created_at)

/-- The _filter_orders helper: sequentially apply the status filter, the
created_from lower bound and the created_to upper bound (each only when
supplied), then sort by created_at descending. -/
def filterOrders (status : Option OrderStatus) (created_from : Option Int)
    (created_to : Option Int) (store : Store) : List Order :=
  let result := store.map (fun p => p.2)
  let result :=
    match status with
    | some s => result.filter (fun (o : Order) => o.status == s)
    | none => result
  let result :=
    match created_from with
    | some t => result.filter (fun (o : Order) => decide (t ≤ o.created_at))
    | none => result
  let result :=
    match created_to with
    | some t => result.filter (fun (o : Order) => decide (o.created_at ≤ t))
    | none => result
  result.mergeSort createdDesc

/-- The list_orders handler delegates to _filter_orders. -/
def list_orders (status : Option OrderStatus) (created_from : Option Int)
    (created_to : Option Int) (store : Store) : List Order :=
  filterOrders status created_from created_to store

/-- Counter key order: first-occurrence order of the statuses. -/
def counterKeys (l : List OrderStatus) : List OrderStatus :=
  l.foldl (fun acc s => if s ∈ acc then acc else acc ++ [s]) []

/-- The orders_report handler: filter, then Counter over the statuses of the
filtered orders; dict(counts) carries only statuses that occur. -/
def orders_report (status : Option OrderStatus) (created_from : Option Int)
    (created_to : Option Int) (store : Store) : OrderReport :=
  let filtered_orders := filterOrders status created_from created_to store
  let sts := filtered_orders.map (fun o => o.status)
  { total := filtered_orders.length
    statuses := (counterKeys sts).map (fun s => (s, sts.count s)) }

/-- The conjunction of the three optional filter predicates, used to state
what _filter_orders keeps. -/
def matchesFilter (status : Option OrderStatus) (created_from : Option Int)
    (created_to : Option Int) (o : Order) : Bool :=
  (match status with
    | some s => o.status == s
    | none => true) &&
  (match created_from with
    | some t => decide (t ≤ o.created_at)
    | none => true) &&
  (match created_to with
    | some t => decide (o.created_at ≤ t)
    | none => true)

/-- The entity invariants of a stored Order record. -/
def validOrder (o : Order) : Bool :=
  decide (1 ≤ o.customer_name.length) &&
  decide (1 ≤ o.item.length) &&
  decide (0 < o.quantity)

/-- A sample stored order used to instantiate the theorems below. -/
def order0 : Order :=
  { id := 0
    customer_name := "a"
    item := "b"
    quantity := 1
    notes := none
    status := OrderStatus.PENDING
    created_at := 0
    updated_at := 0 }

/-- A one-element store holding order0 under key 0. -/
def store0 : Store := [(0, order0)]

/-- A sample cancelled order. -/
def orderC : Order :=
  { order0 with status := OrderStatus.CANCELLED }

/-- A one-element store holding the cancelled order under key 0. -/
def storeC : Store := [(0, orderC)]

/-- An update request that only sets quantity to 2. -/
def updQ2 : OrderUpdate := ⟨none, none, some (some 2), none, none⟩

/-- An update request that explicitly nulls customer_name. -/
def updNullName : OrderUpdate := ⟨some none, none, none, none, none⟩

/-- An update request that sends no field at all. -/
def updNone : OrderUpdate := ⟨none, none, none, none, none⟩

/-- A valid creation input. -/
def inpValid : OrderCreate := ⟨"c", "d", 2, none⟩

lemma mem_storeKeys_of_assocGet {store : Store} {k : Nat} {o : Order}
    (h : assocGet store k = some o) : k ∈ storeKeys store := by
  induction store with
  | nil => simp [assocGet] at h
  | cons p t ih =>
    by_cases hp : p.1 = k
    · simp [storeKeys, hp]
    · simp only [assocGet, List.find?] at h
      rw [show (p.1 == k) = false by simpa using hp] at h
      simp only [storeKeys, List.map_cons, List.mem_cons]
      exact Or.inr (ih h)

lemma assocGet_not_mem {store : Store} {k : Nat}
    (h : k ∉ storeKeys store) : assocGet store k = none := by
  induction store with
  | nil => simp [assocGet]
  | cons p t ih =>
    simp only [storeKeys, List.map_cons, List.mem_cons, not_or] at h
    simp only [assocGet, List.find?]
    rw [show (p.1 == k) = false by simpa using Ne.symm h.1]
    exact ih h.2

lemma assocGet_assocSet_self (store : Store) (k : Nat) (v : Order) :
    assocGet (assocSet store k v) k = some v := by
  induction store with
  | nil => simp [assocSet, assocGet, List.find?]
  | cons p t ih =>
    by_cases hp : p.1 = k
    · simp [assocSet, hp, assocGet, List.find?]
    · simp only [assocSet, if_neg hp]
      simp only [assocGet, List.find?]
      rw [show (p.1 == k) = false by simpa using hp]
      exact ih

lemma assocGet_assocSet_ne (store : Store) {k k2 : Nat} (v : Order)
    (h : k2 ≠ k) : assocGet (assocSet store k v) k2 = assocGet store k2 := by
  induction store with
  | nil =>
    simp only [assocSet, assocGet, List.find?]
    rw [show (k == k2) = false by simpa using Ne.symm h]
  | cons p t ih =>
    by_cases hp : p.1 = k
    · simp only [assocSet, if_pos hp, assocGet, List.find?]
      rw [show (k == k2) = false by simpa using Ne.symm h]
      rw [show (p.1 == k2) = false by simpa using hp ▸ (Ne.symm h)]
    · simp only [assocSet, if_neg hp]
      by_cases hp2 : p.1 = k2
      · simp [assocGet, List.find?, hp2]
      · simp only [assocGet, List.find?]
        rw [show (p.1 == k2) = false by simpa using hp2]
        exact ih

lemma length_assocSet_of_mem {store : Store} {k : Nat} (v : Order)
    (h : k ∈ storeKeys store) : (assocSet store k v).length = store.length := by
  induction store with
  | nil => simp [storeKeys] at h
  | cons p t ih =>
    by_cases hp : p.1 = k
    · simp [assocSet, hp]
    · simp only [storeKeys, List.map_cons, List.mem_cons] at h
      rcases h with h | h
      · exact absurd h.symm hp
      · simp only [assocSet, if_neg hp, List.length_cons]
        rw [ih h]

lemma assocSet_not_mem {store : Store} {k : Nat} (v : Order)
    (h : k ∉ storeKeys store) : assocSet store k v = store ++ [(k, v)] := by
  induction store with
  | nil => simp [assocSet]
  | cons p t ih =>
    simp only [storeKeys, List.map_cons, List.mem_cons, not_or] at h
    simp only [assocSet, if_neg (Ne.symm h.1), List.cons_append]
    rw [ih h.2]

lemma assocGet_append_single {store : Store} {k : Nat} (v : Order)
    (h : k ∉ storeKeys store) : assocGet (store ++ [(k, v)]) k = some v := by
  induction store with
  | nil => simp [assocGet, List.find?]
  | cons p t ih =>
    simp only [storeKeys, List.map_cons, List.mem_cons, not_or] at h
    simp only [List.cons_append, assocGet, List.find?]
    rw [show (p.1 == k) = false by simpa using Ne.symm h.1]
    exact ih h.2

lemma mkOrder_ok_fields {data : OrderData} {o : Order}
    (h : mkOrder data = Except.ok o) :
    data.customer_name = some o.customer_name ∧ data.item = some o.item ∧
    data.quantity = some o.quantity ∧ data.status = some o.status ∧
    data.notes = o.notes ∧ data.id = o.id ∧ data.created_at = o.created_at ∧
    data.updated_at = o.updated_at := by
  rcases data with ⟨i, cn, it, q, nt, st, ca, ua⟩
  cases cn with
  | none => exact absurd h (by simp [mkOrder])
  | some cnv =>
  cases it with
  | none => exact absurd h (by simp [mkOrder])
  | some itv =>
  cases q with
  | none => exact absurd h (by simp [mkOrder])
  | some qv =>
  cases st with
  | none => exact absurd h (by simp [mkOrder])
  | some stv =>
  simp only [mkOrder] at h
  split at h
  · injection h with h2
    subst h2
    simp
  · exact absurd h (by simp)

/-- Claim C1: for every valid creation input and a fresh identifier, create
returns an order with status PENDING, equal creation and update timestamps,
and an id distinct from every previously stored id, and appends exactly that
order to the store under its id. -/
theorem create_order_valid_fresh (newId : Nat) (now : Int)
    (order_input : OrderCreate) (store : Store)
    (hval : validateOrderCreate order_input = true)
    (hfresh : newId ∉ storeKeys store) :
    ∃ o : Order,
      create_order newId now order_input store =
        (Except.ok o, store ++ [(newId, o)]) ∧
      o.status = OrderStatus.PENDING ∧
      o.created_at = o.updated_at ∧
      o.id = newId ∧
      o.id ∉ storeKeys store ∧
      assocGet (store ++ [(newId, o)]) o.id = some o := by
  refine ⟨{ id := newId
            customer_name := order_input.customer_name
            item := order_input.item
            quantity := order_input.quantity
            notes := order_input.notes
            status := OrderStatus.PENDING
            created_at := now
            updated_at := now },
          ?_, rfl, rfl, rfl, hfresh, assocGet_append_single _ hfresh⟩
  simp [create_order, hval, assocSet_not_mem _ hfresh]

/-- Witness for claim C1 at a concrete input. -/
theorem create_order_valid_fresh_witness :
    validateOrderCreate inpValid = true ∧ 1 ∉ storeKeys store0 ∧
    ∃ o : Order,
      create_order 1 3 inpValid store0 = (Except.ok o, store0 ++ [(1, o)]) ∧
      o.status = OrderStatus.PENDING ∧
      o.created_at = o.updated_at ∧
      o.id = 1 ∧
      o.id ∉ storeKeys store0 ∧
      assocGet (store0 ++ [(1, o)]) o.id = some o :=
  ⟨by decide, by decide,
    create_order_valid_fresh 1 3 inpValid store0 (by decide) (by decide)⟩

/-- Claim C2: list returns exactly the stored orders satisfying all supplied
filter predicates (a permutation of the filtered store values), sorted by
created_at in descending order. -/
theorem list_orders_spec (status : Option OrderStatus)
    (created_from created_to : Option Int) (store : Store) :
    (list_orders status created_from created_to store).Perm
      ((store.map (fun p => p.2)).filter
        (matchesFilter status created_from created_to)) ∧
    List.Pairwise (fun a b => b.created_at ≤ a.created_at)
      (list_orders status created_from created_to store) := by
  constructor
  · simp only [list_orders, filterOrders]
    refine (List.mergeSort_perm _ _).trans (List.Perm.of_eq ?_)
    cases status <;> cases created_from <;> cases created_to <;>
      simp only [List.filter_filter] <;>
      first
        | exact (List.filter_eq_self.mpr (fun a _ => by simp [matchesFilter])).symm
        | exact List.filter_congr (fun o _ => by
            simp [matchesFilter, Bool.and_comm, Bool.and_left_comm, Bool.and_assoc])
  · have htrans : ∀ a b c : Order,
        createdDesc a b → createdDesc b c → createdDesc a c := by
      intro a b c hab hbc
      simp only [createdDesc, decide_eq_true_eq] at hab hbc ⊢
      omega
    have htotal : ∀ a b : Order, createdDesc a b || createdDesc b a := by
      intro a b
      simp only [createdDesc, Bool.or_eq_true, decide_eq_true_eq]
      omega
    simp only [list_orders, filterOrders]
    exact (List.sorted_mergeSort htrans htotal _).imp
      (fun h => by simpa [createdDesc] using h)

lemma update_order_eq_of_mk {now : Int} {order_id : Nat} {u : OrderUpdate}
    {store : Store} {existing o : Order}
    (hv : validateOrderUpdate u = true)
    (hget : assocGet store order_id = some existing)
    (hmk : mkOrder
        { applyUpdates (orderToData existing) u with updated_at := now } =
      Except.ok o) :
    update_order now order_id u store =
      (Except.ok o, assocSet store order_id o) := by
  simp [update_order, hv, hget, hmk]

lemma update_order_eq_of_mk_error {now : Int} {order_id : Nat} {u : OrderUpdate}
    {store : Store} {existing : Order} {e : ApiError}
    (hv : validateOrderUpdate u = true)
    (hget : assocGet store order_id = some existing)
    (hmk : mkOrder
        { applyUpdates (orderToData existing) u with updated_at := now } =
      Except.error e) :
    update_order now order_id u store = (Except.error e, store) := by
  simp [update_order, hv, hget, hmk]

lemma update_order_not_found {now : Int} {order_id : Nat} {u : OrderUpdate}
    {store : Store} (hv : validateOrderUpdate u = true)
    (habs : assocGet store order_id = none) :
    update_order now order_id u store =
      (Except.error (ApiError.notFound "Order not found"), store) := by
  simp [update_order, hv, habs]

lemma update_order_snd (now : Int) (order_id : Nat) (u : OrderUpdate)
    (store : Store) :
    (update_order now order_id u store).2 = store ∨
    ∃ o : Order, (update_order now order_id u store).1 = Except.ok o ∧
      (update_order now order_id u store).2 = assocSet store order_id o ∧
      order_id ∈ storeKeys store := by
  cases hv : validateOrderUpdate u with
  | false => left; simp [update_order, hv]
  | true =>
  cases hget : assocGet store order_id with
  | none => left; simp [update_order, hv, hget]
  | some existing =>
  cases hmk : mkOrder
      { applyUpdates (orderToData existing) u with updated_at := now } with
  | error e =>
    left
    rw [update_order_eq_of_mk_error hv hget hmk]
  | ok o =>
    right
    refine ⟨o, ?_, ?_, mem_storeKeys_of_assocGet hget⟩
    · rw [update_order_eq_of_mk hv hget hmk]
    · rw [update_order_eq_of_mk hv hget hmk]

lemma mkOrder_error_of_none {data : OrderData}
    (h : data.customer_name = none ∨ data.item = none ∨
      data.quantity = none ∨ data.status = none) :
    mkOrder data = Except.error ApiError.validationError := by
  rcases data with ⟨i, cn, it, q, nt, st, ca, ua⟩
  cases cn <;> cases it <;> cases q <;> cases st <;> try (simp [mkOrder])
  simp at h

lemma length_pos_iff_ne_empty (s : String) : 1 ≤ s.length ↔ s ≠ "" := by
  cases s with
  | mk data =>
    cases data with
    | nil => simp [String.length]
    | cons c t =>
      constructor
      · intro _ heq
        exact absurd (congrArg String.data heq) (by simp)
      · intro _
        simp [String.length]

lemma mem_foldl_keys (l : List OrderStatus) :
    ∀ (acc : List OrderStatus) (a : OrderStatus),
      a ∈ l.foldl (fun acc s => if s ∈ acc then acc else acc ++ [s]) acc ↔
        a ∈ acc ∨ a ∈ l := by
  induction l with
  | nil => simp
  | cons s t ih =>
    intro acc a
    simp only [List.foldl_cons]
    by_cases hs : s ∈ acc
    · rw [if_pos hs, ih]
      constructor
      · rintro (h | h)
        · exact Or.inl h
        · exact Or.inr (List.mem_cons_of_mem _ h)
      · rintro (h | h)
        · exact Or.inl h
        · rcases List.mem_cons.mp h with rfl | h
          · exact Or.inl hs
          · exact Or.inr h
    · rw [if_neg hs, ih]
      simp only [List.mem_append, List.mem_cons, List.mem_singleton]
      tauto

lemma nodup_foldl_keys (l : List OrderStatus) :
    ∀ acc : List OrderStatus, acc.Nodup →
      (l.foldl (fun acc s => if s ∈ acc then acc else acc ++ [s]) acc).Nodup := by
  induction l with
  | nil => intro acc h; simpa using h
  | cons s t ih =>
    intro acc h
    simp only [List.foldl_cons]
    apply ih
    by_cases hs : s ∈ acc
    · rwa [if_pos hs]
    · rw [if_neg hs]
      simp [List.nodup_append, h, hs]

lemma counterKeys_mem {l : List OrderStatus} {a : OrderStatus} :
    a ∈ counterKeys l ↔ a ∈ l := by
  rw [counterKeys, mem_foldl_keys]
  simp

lemma counterKeys_nodup (l : List OrderStatus) : (counterKeys l).Nodup :=
  nodup_foldl_keys l [] List.nodup_nil

lemma counterKeys_sum_count (l : List OrderStatus) :
    ((counterKeys l).map (fun s => l.count s)).sum = l.length := by
  rw [← List.sum_toFinset (fun s => l.count s) (counterKeys_nodup l)]
  have hset : (counterKeys l).toFinset = l.toFinset := by
    ext a
    simp [counterKeys_mem]
  rw [hset]
  exact List.sum_toFinset_count_eq_length l

/-- Claim C3: on a successful update only the fields explicitly present in the
request are applied: an absent field keeps the stored value, a present field
replaces it, an explicit null for notes clears notes, updated_at becomes now,
and id and created_at are unchanged; in particular a quantity-only update
leaves every other field unchanged and advances updated_at. -/
theorem update_order_frame (now : Int) (order_id : Nat) (u : OrderUpdate)
    (store : Store) (existing : Order)
    (hget : assocGet store order_id = some existing) :
    (∀ (o : Order) (store2 : Store),
      update_order now order_id u store = (Except.ok o, store2) →
        o.id = existing.id ∧ o.created_at = existing.created_at ∧
        o.updated_at = now ∧
        (u.customer_name = none → o.customer_name = existing.customer_name) ∧
        (u.item = none → o.item = existing.item) ∧
        (u.quantity = none → o.quantity = existing.quantity) ∧
        (u.notes = none → o.notes = existing.notes) ∧
        (u.status = none → o.status = existing.status) ∧
        (u.notes = some none → o.notes = none) ∧
        (∀ v : String, u.notes = some (some v) → o.notes = some v) ∧
        (∀ v : String, u.customer_name = some (some v) → o.customer_name = v) ∧
        (∀ v : String, u.item = some (some v) → o.item = v) ∧
        (∀ v : Int, u.quantity = some (some v) → o.quantity = v) ∧
        (∀ v : OrderStatus, u.status = some (some v) → o.status = v)) ∧
    (∀ q : Int, 0 < q → validOrder existing = true →
      update_order now order_id ⟨none, none, some (some q), none, none⟩ store =
        (Except.ok { existing with quantity := q, updated_at := now },
         assocSet store order_id
           { existing with quantity := q, updated_at := now })) := by
  constructor
  · intro o store2 h
    cases hv : validateOrderUpdate u with
    | false => simp [update_order, hv] at h
    | true =>
    cases hmk : mkOrder
        { applyUpdates (orderToData existing) u with updated_at := now } with
    | error e =>
      rw [update_order_eq_of_mk_error hv hget hmk] at h
      simp at h
    | ok uo =>
      rw [update_order_eq_of_mk hv hget hmk] at h
      rw [Prod.mk.injEq] at h
      obtain ⟨h1, _⟩ := h
      injection h1 with h1
      subst h1
      obtain ⟨hcn, hit, hq, hst, hnt, hid, hca, hua⟩ := mkOrder_ok_fields hmk
      simp only [applyUpdates, orderToData] at hcn hit hq hst hnt hid hca hua
      refine ⟨hid.symm, hca.symm, hua.symm, ?_, ?_, ?_, ?_, ?_, ?_, ?_, ?_, ?_,
        ?_, ?_⟩
      · intro hu
        rw [hu] at hcn
        simpa using hcn.symm
      · intro hu
        rw [hu] at hit
        simpa using hit.symm
      · intro hu
        rw [hu] at hq
        simpa using hq.symm
      · intro hu
        rw [hu] at hnt
        simpa using hnt.symm
      · intro hu
        rw [hu] at hst
        simpa using hst.symm
      · intro hu
        rw [hu] at hnt
        simpa using hnt.symm
      · intro v hu
        rw [hu] at hnt
        simpa using hnt.symm
      · intro v hu
        rw [hu] at hcn
        simpa using hcn.symm
      · intro v hu
        rw [hu] at hit
        simpa using hit.symm
      · intro v hu
        rw [hu] at hq
        simpa using hq.symm
      · intro v hu
        rw [hu] at hst
        simpa using hst.symm
  · intro q hq hval
    have hvu :
        validateOrderUpdate ⟨none, none, some (some q), none, none⟩ = true := by
      simp [validateOrderUpdate, hq]
    have hmk : mkOrder
        { applyUpdates (orderToData existing)
            ⟨none, none, some (some q), none, none⟩ with updated_at := now } =
        Except.ok { existing with quantity := q, updated_at := now } := by
      obtain ⟨⟨h1, h2⟩, _⟩ :
          (1 ≤ existing.customer_name.length ∧ 1 ≤ existing.item.length) ∧
            0 < existing.quantity := by
        simpa [validOrder, Bool.and_eq_true, decide_eq_true_eq] using hval
      obtain ⟨eid, ecn, eit, eq2, ent, est, eca, eua⟩ := existing
      simp only [validOrder] at h1 h2
      simp [mkOrder, applyUpdates, orderToData, h1, h2, hq]
    exact update_order_eq_of_mk hvu hget hmk

/-- Witness for claim C3 at a concrete store and quantity-only update. -/
theorem update_order_frame_witness :
    update_order 5 0 updQ2 store0 =
      (Except.ok { order0 with quantity := 2, updated_at := 5 },
       assocSet store0 0 { order0 with quantity := 2, updated_at := 5 }) :=
  (update_order_frame 5 0 updQ2 store0 order0 (by decide)).2 2 (by decide)
    (by decide)

/-- Claim C4: an update whose merged record would violate an entity invariant
(for instance a required field explicitly supplied as null) fails with a
validation error, and the store is left unchanged whenever update fails. -/
theorem update_order_validation_failure (now : Int) (order_id : Nat)
    (u : OrderUpdate) (store : Store) (existing : Order)
    (hget : assocGet store order_id = some existing)
    (hv : validateOrderUpdate u = true) :
    (∀ e : ApiError, (update_order now order_id u store).1 = Except.error e →
      (update_order now order_id u store).2 = store) ∧
    (u.customer_name = some none ∨ u.item = some none ∨
        u.quantity = some none ∨ u.status = some none →
      update_order now order_id u store =
        (Except.error ApiError.validationError, store)) := by
  constructor
  · intro e h
    rcases update_order_snd now order_id u store with h2 | ⟨o, h2, _, _⟩
    · exact h2
    · rw [h2] at h
      exact absurd h (by simp)
  · intro hnull
    have hmk : mkOrder
        { applyUpdates (orderToData existing) u with updated_at := now } =
        Except.error ApiError.validationError := by
      apply mkOrder_error_of_none
      rcases hnull with h | h | h | h
      · exact Or.inl (by simp [applyUpdates, orderToData, h])
      · exact Or.inr (Or.inl (by simp [applyUpdates, orderToData, h]))
      · exact Or.inr (Or.inr (Or.inl (by simp [applyUpdates, orderToData, h])))
      · exact Or.inr (Or.inr (Or.inr (by simp [applyUpdates, orderToData, h])))
    exact update_order_eq_of_mk_error hv hget hmk

/-- Witness for claim C4: explicitly nulling customer_name on a stored order
fails with a validation error and leaves the store unchanged. -/
theorem update_order_validation_failure_witness :
    update_order 5 0 updNullName store0 =
      (Except.error ApiError.validationError, store0) :=
  (update_order_validation_failure 5 0 updNullName store0 order0 (by decide)
    (by decide)).2 (Or.inl (by decide))

/-- Claim C5: cancel returns an already cancelled order unchanged with no
timestamp refresh and no store modification; otherwise it stamps status
CANCELLED and updated_at and stores the result; cancelling twice yields
exactly the state and response of cancelling once. -/
theorem cancel_order_idempotent (t1 t2 : Int) (order_id : Nat) (store : Store)
    (existing : Order) (hget : assocGet store order_id = some existing) :
    (existing.status = OrderStatus.CANCELLED →
      cancel_order t1 order_id store = (Except.ok existing, store)) ∧
    (existing.status ≠ OrderStatus.CANCELLED →
      cancel_order t1 order_id store =
        (Except.ok
          { existing with status := OrderStatus.CANCELLED, updated_at := t1 },
         assocSet store order_id
          { existing with status := OrderStatus.CANCELLED, updated_at := t1 })) ∧
    cancel_order t2 order_id (cancel_order t1 order_id store).2 =
      cancel_order t1 order_id store := by
  refine ⟨fun hc => by simp [cancel_order, hget, hc],
          fun hc => by simp [cancel_order, hget, hc], ?_⟩
  by_cases hc : existing.status = OrderStatus.CANCELLED
  · have hA : ∀ t : Int, cancel_order t order_id store =
        (Except.ok existing, store) := fun t => by
      simp [cancel_order, hget, hc]
    rw [hA t1]
    exact hA t2
  · have hB : cancel_order t1 order_id store =
        (Except.ok
          { existing with status := OrderStatus.CANCELLED, updated_at := t1 },
         assocSet store order_id
          { existing with status := OrderStatus.CANCELLED, updated_at := t1 }) := by
      simp [cancel_order, hget, hc]
    rw [hB]
    have hget2 : assocGet
        (assocSet store order_id
          { existing with status := OrderStatus.CANCELLED, updated_at := t1 })
        order_id =
        some { existing with status := OrderStatus.CANCELLED, updated_at := t1 } :=
      assocGet_assocSet_self store order_id _
    simp [cancel_order, hget2]

/-- Witness for claim C5: cancelling twice equals cancelling once. -/
theorem cancel_order_idempotent_witness :
    cancel_order 9 0 (cancel_order 7 0 store0).2 = cancel_order 7 0 store0 :=
  (cancel_order_idempotent 7 9 0 store0 order0 (by decide)).2.2

/-- Claim C7: an update that explicitly supplies a status different from
CANCELLED on a stored CANCELLED order succeeds and stores the order with the
new status: only the dedicated cancel operation is sticky. -/
theorem update_order_moves_from_cancelled (now : Int) (order_id : Nat)
    (store : Store) (existing : Order) (st : OrderStatus)
    (hget : assocGet store order_id = some existing)
    (hc : existing.status = OrderStatus.CANCELLED)
    (hst : st ≠ OrderStatus.CANCELLED)
    (hval : validOrder existing = true) :
    update_order now order_id ⟨none, none, none, none, some (some st)⟩ store =
      (Except.ok { existing with status := st, updated_at := now },
       assocSet store order_id { existing with status := st, updated_at := now }) ∧
    assocGet
      (assocSet store order_id { existing with status := st, updated_at := now })
      order_id = some { existing with status := st, updated_at := now } := by
  have hvu :
      validateOrderUpdate ⟨none, none, none, none, some (some st)⟩ = true := rfl
  have hmk : mkOrder
      { applyUpdates (orderToData existing)
          ⟨none, none, none, none, some (some st)⟩ with updated_at := now } =
      Except.ok { existing with status := st, updated_at := now } := by
    obtain ⟨⟨h1, h2⟩, h3⟩ :
        (1 ≤ existing.customer_name.length ∧ 1 ≤ existing.item.length) ∧
          0 < existing.quantity := by
      simpa [validOrder, Bool.and_eq_true, decide_eq_true_eq] using hval
    obtain ⟨eid, ecn, eit, eq2, ent, est, eca, eua⟩ := existing
    simp only at h1 h2 h3
    simp [mkOrder, applyUpdates, orderToData, h1, h2, h3]
  exact ⟨update_order_eq_of_mk hvu hget hmk,
    assocGet_assocSet_self store order_id _⟩

/-- Witness for claim C7: moving a cancelled order back to PENDING. -/
theorem update_order_moves_from_cancelled_witness :
    update_order 5 0 ⟨none, none, none, none, some (some OrderStatus.PENDING)⟩
        storeC =
      (Except.ok { orderC with status := OrderStatus.PENDING, updated_at := 5 },
       assocSet storeC 0
        { orderC with status := OrderStatus.PENDING, updated_at := 5 }) ∧
    assocGet
      (assocSet storeC 0
        { orderC with status := OrderStatus.PENDING, updated_at := 5 }) 0 =
      some { orderC with status := OrderStatus.PENDING, updated_at := 5 } :=
  update_order_moves_from_cancelled 5 0 storeC orderC OrderStatus.PENDING
    (by decide) (by decide) (by decide) (by decide)

/-- Claim C8: creation with an empty customer_name or item or a non-positive
quantity fails with a validation error and stores nothing; a creation input
satisfying every field constraint always succeeds. -/
theorem create_order_invalid (newId : Nat) (now : Int)
    (order_input : OrderCreate) (store : Store) :
    (order_input.customer_name = "" ∨ order_input.item = "" ∨
        order_input.quantity ≤ 0 →
      create_order newId now order_input store =
        (Except.error ApiError.validationError, store)) ∧
    (order_input.customer_name ≠ "" → order_input.item ≠ "" →
        0 < order_input.quantity →
      (create_order newId now order_input store).1 =
        Except.ok
          { id := newId
            customer_name := order_input.customer_name
            item := order_input.item
            quantity := order_input.quantity
            notes := order_input.notes
            status := OrderStatus.PENDING
            created_at := now
            updated_at := now }) := by
  constructor
  · intro h
    have hv : validateOrderCreate order_input = false := by
      rcases h with h | h | h
      · have : ¬ 1 ≤ order_input.customer_name.length := fun hc =>
          (length_pos_iff_ne_empty _).mp hc h
        simp [validateOrderCreate, this]
      · have : ¬ 1 ≤ order_input.item.length := fun hc =>
          (length_pos_iff_ne_empty _).mp hc h
        simp [validateOrderCreate, this]
      · have : ¬ 0 < order_input.quantity := by omega
        simp [validateOrderCreate, this]
    simp [create_order, hv]
  · intro h1 h2 h3
    have hv : validateOrderCreate order_input = true := by
      simp [validateOrderCreate, (length_pos_iff_ne_empty _).mpr h1,
        (length_pos_iff_ne_empty _).mpr h2, h3]
    simp [create_order, hv]

/-- Witness for claim C8: an empty customer_name is rejected with the store
unchanged, and a valid input is accepted. -/
theorem create_order_invalid_witness :
    create_order 1 3 ⟨"", "d", 2, none⟩ store0 =
      (Except.error ApiError.validationError, store0) ∧
    (create_order 1 3 inpValid store0).1 =
      Except.ok
        { id := 1
          customer_name := "c"
          item := "d"
          quantity := 2
          notes := none
          status := OrderStatus.PENDING
          created_at := 3
          updated_at := 3 } :=
  ⟨(create_order_invalid 1 3 ⟨"", "d", 2, none⟩ store0).1 (Or.inl rfl),
   (create_order_invalid 1 3 inpValid store0).2 (by decide) (by decide)
     (by decide)⟩

/-- Claim C9: update and cancel on an identifier that is not in the store both
fail with the 404 "Order not found" error and leave the collection, including
its size, unchanged. -/
theorem not_found_unchanged (now : Int) (order_id : Nat) (u : OrderUpdate)
    (store : Store) (habs : assocGet store order_id = none)
    (hv : validateOrderUpdate u = true) :
    update_order now order_id u store =
      (Except.error (ApiError.notFound "Order not found"), store) ∧
    cancel_order now order_id store =
      (Except.error (ApiError.notFound "Order not found"), store) ∧
    (update_order now order_id u store).2.length = store.length ∧
    (cancel_order now order_id store).2.length = store.length := by
  have h1 := @update_order_not_found now order_id u store hv habs
  have h2 : cancel_order now order_id store =
      (Except.error (ApiError.notFound "Order not found"), store) := by
    simp [cancel_order, habs]
  exact ⟨h1, h2, by rw [h1], by rw [h2]⟩

/-- Witness for claim C9 on a missing identifier. -/
theorem not_found_unchanged_witness :
    update_order 5 7 updNone store0 =
      (Except.error (ApiError.notFound "Order not found"), store0) ∧
    cancel_order 5 7 store0 =
      (Except.error (ApiError.notFound "Order not found"), store0) ∧
    (update_order 5 7 updNone store0).2.length = store0.length ∧
    (cancel_order 5 7 store0).2.length = store0.length :=
  not_found_unchanged 5 7 updNone store0 (by decide) (by decide)

/-- Claim C10: every operation leaves all records other than the one it
addresses unchanged; create with a fresh id and valid input adds exactly one
entry, and update and cancel preserve the collection size, so no entry is ever
removed. -/
theorem frame_spec (newId : Nat) (now : Int) (order_input : OrderCreate)
    (order_id k1 k2 : Nat) (u : OrderUpdate) (store : Store)
    (hfresh : newId ∉ storeKeys store)
    (hval : validateOrderCreate order_input = true)
    (hk1 : k1 ≠ newId) (hk2 : k2 ≠ order_id) :
    assocGet (create_order newId now order_input store).2 k1 =
      assocGet store k1 ∧
    (create_order newId now order_input store).2.length = store.length + 1 ∧
    assocGet (update_order now order_id u store).2 k2 = assocGet store k2 ∧
    (update_order now order_id u store).2.length = store.length ∧
    assocGet (cancel_order now order_id store).2 k2 = assocGet store k2 ∧
    (cancel_order now order_id store).2.length = store.length := by
  refine ⟨?_, ?_, ?_, ?_, ?_, ?_⟩
  · simp only [create_order, hval, if_true]
    exact assocGet_assocSet_ne store _ hk1
  · simp [create_order, hval, assocSet_not_mem _ hfresh]
  · rcases update_order_snd now order_id u store with h | ⟨o, _, h2, _⟩
    · rw [h]
    · rw [h2]
      exact assocGet_assocSet_ne store _ hk2
  · rcases update_order_snd now order_id u store with h | ⟨o, _, h2, hmem⟩
    · rw [h]
    · rw [h2]
      exact length_assocSet_of_mem _ hmem
  · cases hget : assocGet store order_id with
    | none => simp [cancel_order, hget]
    | some existing =>
      by_cases hc : existing.status = OrderStatus.CANCELLED
      · simp [cancel_order, hget, hc]
      · simp only [cancel_order, hget]
        rw [if_neg hc]
        exact assocGet_assocSet_ne store _ hk2
  · cases hget : assocGet store order_id with
    | none => simp [cancel_order, hget]
    | some existing =>
      by_cases hc : existing.status = OrderStatus.CANCELLED
      · simp [cancel_order, hget, hc]
      · simp only [cancel_order, hget]
        rw [if_neg hc]
        exact length_assocSet_of_mem _ (mem_storeKeys_of_assocGet hget)

/-- Witness for claim C10 at a concrete store. -/
theorem frame_spec_witness :
    assocGet (create_order 1 3 inpValid store0).2 0 = assocGet store0 0 ∧
    (create_order 1 3 inpValid store0).2.length = store0.length + 1 ∧
    assocGet (update_order 3 0 updQ2 store0).2 1 = assocGet store0 1 ∧
    (update_order 3 0 updQ2 store0).2.length = store0.length ∧
    assocGet (cancel_order 3 0 store0).2 1 = assocGet store0 1 ∧
    (cancel_order 3 0 store0).2.length = store0.length :=
  frame_spec 1 3 inpValid 0 0 1 updQ2 store0 (by decide) (by decide)
    (by decide) (by decide)

/-- Claim C6: report applies the same filter semantics as list; total is the
size of the filtered set; the statuses mapping holds exactly the statuses that
occur among the filtered orders, each with its count (zero counts omitted);
and total equals the sum of the counts. -/
theorem orders_report_spec (status : Option OrderStatus)
    (created_from created_to : Option Int) (store : Store) :
    (orders_report status created_from created_to store).total =
      (list_orders status created_from created_to store).length ∧
    (∀ (s : OrderStatus) (n : Nat),
      (s, n) ∈ (orders_report status created_from created_to store).statuses ↔
        (s ∈ (filterOrders status created_from created_to store).map
            (fun o => o.status) ∧
         n = ((filterOrders status created_from created_to store).map
            (fun o => o.status)).count s)) ∧
    (orders_report status created_from created_to store).total =
      ((orders_report status created_from created_to store).statuses.map
        (fun p => p.2)).sum := by
  refine ⟨rfl, ?_, ?_⟩
  · intro s n
    simp only [orders_report]
    constructor
    · intro hmem
      obtain ⟨a, ha, heq⟩ := List.mem_map.mp hmem
      rw [Prod.mk.injEq] at heq
      obtain ⟨rfl, rfl⟩ := heq
      exact ⟨counterKeys_mem.mp ha, rfl⟩
    · rintro ⟨hs, rfl⟩
      exact List.mem_map.mpr ⟨s, counterKeys_mem.mpr hs, rfl⟩
  · have h := counterKeys_sum_count
      ((filterOrders status created_from created_to store).map (fun o => o.status))
    simp only [orders_report, List.map_map, Function.comp_def]
    rw [h, List.length_map]

/-- Witness for claim C6 at a concrete store and membership query. -/
theorem orders_report_spec_witness :
    (orders_report none none none store0).total =
      (list_orders none none none store0).length ∧
    ((OrderStatus.PENDING, 1) ∈ (orders_report none none none store0).statuses ↔
      (OrderStatus.PENDING ∈ (filterOrders none none none store0).map
          (fun o => o.status) ∧
       1 = ((filterOrders none none none store0).map
          (fun o => o.status)).count OrderStatus.PENDING)) ∧
    (orders_report none none none store0).total =
      ((orders_report none none none store0).statuses.map (fun p => p.2)).sum :=
  ⟨(orders_report_spec none none none store0).1,
   (orders_report_spec none none none store0).2.1 OrderStatus.PENDING 1,
   (orders_report_spec none none none store0).2.2⟩

end OrdersApp
